import Mathlib

/-!
Shallow embedding of the trajectory-integration and least-action-path
subsystem of the `dynamo` repository (files
`dynamo/prediction/least_action_path.py`, `dynamo/tools/utils.py`,
`dynamo/tools/fate.py`), together with theorems settling the frozen claims.

Conventions.
* A state vector (one row of a 2-D numpy array) is a `List ℚ` (named `Vecq`)
  for the purely arithmetic code, and a `List ℝ` (named `Vecr`) for the
  arc-curve code, whose norms involve square roots.
* Python floats are modelled by exact arithmetic (`ℚ` or `ℝ`).
* External library functions used by the code (scipy's `odeint`, `minimize`,
  `interp1d`, networkx shortest paths, the nearest-neighbour lookup) are
  parameters of the embedded definitions: the claims are about the code
  built around them, for any behaviour of the external collaborator.
* Fallible code returns `Except String α`; the stored strings name the
  Python exception that the corresponding line raises.
-/

/-- A state vector over exact rationals (a row of a numpy array). -/
abbrev Vecq := List ℚ

/-- Entrywise sum of two vectors (`numpy +` on same-shape rows). -/
def vadd (a b : Vecq) : Vecq := List.zipWith (· + ·) a b

/-- Entrywise difference of two vectors (`numpy -` on same-shape rows). -/
def vsub (a b : Vecq) : Vecq := List.zipWith (· - ·) a b

/-- Multiply every entry of a vector by a scalar. -/
def vscale (c : ℚ) (a : Vecq) : Vecq := a.map (fun z => c * z)

/-- Dot product of two vectors of equal length. -/
def vdot (a b : Vecq) : ℚ := (List.zipWith (· * ·) a b).sum

/-- Sum of squares of the entries of a vector: `v.dot(v)` for a flat array. -/
def sumsq (a : Vecq) : ℚ := (a.map (fun z => z * z)).sum

instance instDecEqExcept {ε α : Type} [DecidableEq ε] [DecidableEq α] :
    DecidableEq (Except ε α) := fun a b =>
  match a, b with
  | .error e, .error f => decidable_of_iff (e = f) (by simp)
  | .error _, .ok _ => isFalse (by simp)
  | .ok _, .error _ => isFalse (by simp)
  | .ok x, .ok y => decidable_of_iff (x = y) (by simp)

section ActionModule

/-!
## `dynamo/prediction/least_action_path.py`

The vector field `vf_func` is modelled as a map on single states; the
Python code calls it on the whole `(n, dim)` array of midpoints at once,
which is the row-by-row application of the same pure function.
-/

/-- Midpoints `x = (path[:-1] + path[1:]) * 0.5` of consecutive path points. -/
def midpoints (path : List Vecq) : List Vecq :=
  List.zipWith (fun a b => (vadd a b).map (fun z => z * (1/2))) path.dropLast path.tail

/-- Finite-difference velocities `v = np.diff(path, axis=0) / dt`. -/
def velocities (path : List Vecq) (dt : ℚ) : List Vecq :=
  List.zipWith (fun a b => (vsub b a).map (fun z => z / dt)) path.dropLast path.tail

/-- `action(path, vf_func, D, dt)` from `least_action_path.py`:
`s = (v - vf_func(x)).flatten()`, then `0.5 * s.dot(s) * dt / D`. -/
def action (path : List Vecq) (vf_func : Vecq → Vecq) (D : ℚ := 1) (dt : ℚ := 1) : ℚ :=
  let x := midpoints path
  let v := velocities path dt
  let s := (List.zipWith (fun vi xi => vsub vi (vf_func xi)) v x).flatten
  (1/2) * sumsq s * dt / D

/-- The action functional exactly as the specification words it:
`action = (dt / 2D) · Σᵢ ‖vᵢ − f(mᵢ)‖²` with `mᵢ = (xᵢ+xᵢ₊₁)/2` and
`vᵢ = (xᵢ₊₁−xᵢ)/dt`; `‖·‖²` is the squared Euclidean norm, written as the
sum of squares of the entries. (Second definition for the refinement
claim C6; to be compared with `action` above.) -/
def action_spec (path : List Vecq) (vf_func : Vecq → Vecq) (D : ℚ) (dt : ℚ) : ℚ :=
  let terms := List.zipWith
    (fun vi mi => sumsq (vsub vi (vf_func mi))) (velocities path dt) (midpoints path)
  dt / (2 * D) * terms.sum

/-- `reshape_path(path_flatten, dim, start, end)`: reshape the flat vector to
`(len/dim, dim)` and re-attach the fixed boundary rows.  numpy's `reshape`
raises `ValueError` when `int(len/dim) * dim ≠ len` (and `int(len/dim)`
raises `ZeroDivisionError` for `dim = 0`). -/
def chunkRowsGo (dim : ℕ) : ℕ → List ℚ → List Vecq
  | 0, _ => []
  | fuel + 1, l =>
    if dim = 0 ∨ l = [] then []
    else l.take dim :: chunkRowsGo dim fuel (l.drop dim)

def chunkRows (l : List ℚ) (dim : ℕ) : List Vecq := chunkRowsGo dim l.length l

def reshape_path (path_flatten : List ℚ) (dim : ℕ)
    (start : Option Vecq := none) (stop : Option Vecq := none) :
    Except String (List Vecq) :=
  if dim = 0 then .error "ZeroDivisionError: division by zero"
  else if (path_flatten.length / dim) * dim ≠ path_flatten.length then
    .error "ValueError: cannot reshape array"
  else
    let path := chunkRows path_flatten dim
    let path := match start with | none => path | some s => s :: path
    let path := match stop with | none => path | some e => path ++ [e]
    .ok path

/-- `action_aux(path_flatten, vf_func, dim, start, end, D, dt)`. -/
def action_aux (path_flatten : List ℚ) (vf_func : Vecq → Vecq) (dim : ℕ)
    (start : Option Vecq) (stop : Option Vecq) (D dt : ℚ) : Except String ℚ :=
  (reshape_path path_flatten dim start stop).map (fun p => action p vf_func D dt)

/-- One Jacobian matrix (list of rows) per midpoint: the slice `J[:, :, s]`
of the `jac_func` output batched over the midpoints. -/
def jacMul (dv : Vecq) (J : List Vecq) : Vecq :=
  -- `dv @ J`: entry j is `Σ_k dv[k] * J[k][j]`.
  (List.range ((J.headI).length)).map
    (fun j => ((List.zipWith (fun dvk row => dvk * row.getD j 0) dv J)).sum)

/-- `action_grad(path, vf_func, jac_func, D, dt)`:
`grad = (dv[:-1] - dv[1:]) / D - dt / (2 D) * (z[:-1] + z[1:])` where
`z[s] = dv[s] @ J[:, :, s]`. -/
def action_grad (path : List Vecq) (vf_func : Vecq → Vecq)
    (jac_func : Vecq → List Vecq) (D dt : ℚ) : List Vecq :=
  let x := midpoints path
  let v := velocities path dt
  let dv := List.zipWith (fun vi xi => vsub vi (vf_func xi)) v x
  let z := List.zipWith (fun dvi xi => jacMul dvi (jac_func xi)) dv x
  List.zipWith
    (fun dpair zpair =>
      vsub ((vsub dpair.1 dpair.2).map (fun q => q / D))
        ((vadd zpair.1 zpair.2).map (fun q => dt / (2 * D) * q)))
    (List.zipWith (fun a b => (a, b)) dv.dropLast dv.tail)
    (List.zipWith (fun a b => (a, b)) z.dropLast z.tail)

/-- `action_grad_aux(path_flatten, vf_func, jac_func, dim, start, end, D, dt)`. -/
def action_grad_aux (path_flatten : List ℚ) (vf_func : Vecq → Vecq)
    (jac_func : Vecq → List Vecq) (dim : ℕ)
    (start : Option Vecq) (stop : Option Vecq) (D dt : ℚ) : Except String (List ℚ) :=
  (reshape_path path_flatten dim start stop).map
    (fun p => (action_grad p vf_func jac_func D dt).flatten)

/-- The closure `fun` defined inside `least_action_path`.  Its Python body is
`action_aux(x, vf_func, dim, start=path_0[0], end=path_0[-1], D=D, dt=dt_0)`
with NO `return` statement: the value of `action_aux` is computed and
discarded and the closure returns `None`, modelled as `none`. -/
def lap_fun (path_0 : List Vecq) (vf_func : Vecq → Vecq) (dim : ℕ) (D dt_0 : ℚ)
    (x : List ℚ) : Option ℚ :=
  let _ := action_aux x vf_func dim (some path_0.headI) (some path_0.getLastI) D dt_0
  none

/-- The closure `jac` defined inside `least_action_path`; like `lap_fun` its
body lacks a `return`, so it returns `None`. -/
def lap_jac (path_0 : List Vecq) (vf_func : Vecq → Vecq)
    (jac_func : Vecq → List Vecq) (dim : ℕ) (D dt_0 : ℚ)
    (x : List ℚ) : Option (List ℚ) :=
  let _ := action_grad_aux x vf_func jac_func dim (some path_0.headI)
    (some path_0.getLastI) D dt_0
  none

/-- The default seed path of `least_action_path` when `init_path is None`:
`np.tile(start, (n+1, 1)) + (np.linspace(0, 1, n+1) * np.tile(end-start, (n+1,1)).T).T`,
i.e. row `k` is `start + (k/n_points) * (end - start)`.
(`np.linspace(0, 1, 1)` is `[0.]`; rational division by zero is `0`, so the
`n_points = 0` degenerate row agrees.) -/
def lap_seed (start stop : Vecq) (n_points : ℕ) : List Vecq :=
  (List.range (n_points + 1)).map
    (fun (k : ℕ) =>
      List.zipWith (fun a b => a + ((k : ℚ) / (n_points : ℚ)) * (b - a)) start stop)

/-- Result dictionary of a `scipy.optimize.minimize` call: the fields the
code reads (`"x"`, `"fun"`, `"message"`). -/
structure SolDict where
  x : List ℚ
  val : ℚ
  message : String
deriving DecidableEq

/-- The `path_0` selection at the top of `least_action_path`: the supplied
`init_path` when given, otherwise the linear-interpolation seed. -/
def lap_path0 (start stop : Vecq) (n_points : ℕ) (init_path : Option (List Vecq)) :
    List Vecq :=
  match init_path with
  | none => lap_seed start stop n_points
  | some p => p

/-- `least_action_path(start, end, vf_func, jac_func, n_points, init_path, D, dt_0)`.
`scipy.optimize.minimize` is external and is passed in as the two parameters
`minimizePath` (the path optimization; it receives the objective closure,
the jacobian closure and the flattened interior seed `path_0[1:-1]`) and
`minimizeScalar` (the transit-time optimization over `dt`). -/
def least_action_path
    (minimizePath : (List ℚ → Option ℚ) → (List ℚ → Option (List ℚ)) → List ℚ → SolDict)
    (minimizeScalar : (ℚ → ℚ) → ℚ → SolDict)
    (start stop : Vecq) (vf_func : Vecq → Vecq) (jac_func : Vecq → List Vecq)
    (n_points : ℕ := 20) (init_path : Option (List Vecq) := none)
    (D : ℚ := 1) (dt_0 : ℚ := 1) :
    Except String (List Vecq × ℚ × ℚ × SolDict) := do
  let dim := start.length
  let path_0 := lap_path0 start stop n_points init_path
  let sol_dict := minimizePath (lap_fun path_0 vf_func dim D dt_0)
    (lap_jac path_0 vf_func jac_func dim D dt_0)
    ((path_0.drop 1).dropLast.flatten)
  let path_sol ← reshape_path sol_dict.x dim (some path_0.headI) (some path_0.getLastI)
  let t_dict := minimizeScalar (fun tv => action path_sol vf_func D tv) dt_0
  let action_opt := t_dict.val
  let dt_sol := t_dict.x.headI
  return (path_sol, dt_sol, action_opt, sol_dict)

end ActionModule

section TrajectoryModule

/-- Modelled from the spec: the `Trajectory` base class
(`dynamo/prediction/trajectory.py` is imported by `least_action_path.py` but
is not among the provided source files).  Per §3 of the spec a Trajectory
"owns a Path and its associated Time grid (1:1, same length)"; its
constructor, called by `LeastActionPath.__init__` as `super().__init__(X, t)`,
stores the path `X` and the time grid `t`. -/
structure Trajectory where
  X : List Vecq
  t : List ℚ

/-- The `LeastActionPath` class: the stored fields after `__init__` runs. -/
structure LeastActionPath extends Trajectory where
  func : Vecq → Vecq
  D : ℚ
  actionSeries : List ℚ

/-- `LeastActionPath.__init__(X, vf_func, D, dt)`:
`super().__init__(X, t=np.arange(X.shape[0]) * dt)`, then
`self._action = np.zeros(X.shape[0])` and
`for i in range(1, len(self._action)): self._action[i] = action(self.X[:i+1], self.func, self.D, dt)`. -/
def LeastActionPath.construct (X : List Vecq) (vf_func : Vecq → Vecq)
    (D : ℚ := 1) (dt : ℚ := 1) : LeastActionPath :=
  { X := X
    t := (List.range X.length).map (fun (i : ℕ) => (i : ℚ) * dt)
    func := vf_func
    D := D
    actionSeries := (List.range X.length).map
      (fun i => if i = 0 then 0 else action (X.take (i + 1)) vf_func D dt) }

end TrajectoryModule

section ArcCurveModule

/-!
## Arc-curve functions of `dynamo/tools/utils.py`

(`least_action_path.py` imports `remove_redundant_points_trajectory` and
`arclength_sampling` from `dynamo/prediction/utils.py`; the provided source
and the claim list identify them with the functions of those names in
`dynamo/tools/utils.py`, embedded here.)

These involve `np.linalg.norm`, i.e. square roots, so state vectors are
lists of reals here.  All inputs in scope are genuine non-empty 2-D arrays,
for which `np.atleast_2d` is the identity and is not modelled.
-/

/-- A state vector over the reals. -/
abbrev Vecr := List ℝ

/-- Entrywise difference of two real vectors. -/
def rsub (a b : Vecr) : Vecr := List.zipWith (· - ·) a b

/-- `np.linalg.norm`: the Euclidean norm of a vector. -/
noncomputable def eunorm (v : Vecr) : ℝ := Real.sqrt ((v.map (fun z => z * z)).sum)

/-- Total arclength of a polyline: the sum of consecutive segment norms
(this is the `arclength` accumulation loop of
`remove_redundant_points_trajectory`, whose `i == 1` special case
`X[1] - x0` coincides with `X[1] - X[0]`). -/
noncomputable def polyLen (X : List Vecr) : ℝ :=
  (List.zipWith (fun a b => eunorm (rsub b a)) X.dropLast X.tail).sum

open Classical in
/-- The `discard` flags of `remove_redundant_points_trajectory`: entry 0 is
never set, and `discard[i+1] = (np.linalg.norm(X[i+1] - X[i]) < tol)` — the
comparison is against the immediate array predecessor `X[i]` of the
original input,  whether or not that predecessor was itself discarded. -/
noncomputable def discardFlags (X : List Vecr) (tol : ℝ) : List Bool :=
  match X with
  | [] => []
  | _ :: _ =>
    false :: List.zipWith (fun a b => if eunorm (rsub b a) < tol then true else false)
      X.dropLast X.tail

/-- `remove_redundant_points_trajectory(X, tol, output_discard=True)`:
returns the filtered path `X[~discard]`, its arclength, and the flags. -/
noncomputable def remove_redundant_points_trajectory (X : List Vecr) (tol : ℝ) :
    List Vecr × ℝ × List Bool :=
  let discard := discardFlags X tol
  let filtered := (X.zip discard).filterMap (fun p => if p.2 then none else some p.1)
  (filtered, polyLen filtered, discard)

/-- `range(i, len(X) - 1)`: the index list walked by the inner `for` loop of
`arclength_sampling`.  Note the final input point `X[len(X)-1]` is excluded. -/
def jsRange (i n : ℕ) : List ℕ := List.range' i (n - 1 - i)

/-- The segment vector walked at inner-loop index `j`:
`tangent = X[j] - x0 if j == i else X[j] - X[j-1]`. -/
def arcTangent (X : List Vecr) (i j : ℕ) (x0 : Vecr) : Vecr :=
  if j = i then rsub (X.getD j []) x0 else rsub (X.getD j []) (X.getD (j - 1) [])

/-- The point (and interpolated time) emitted by the `break` branch of the
inner loop: `x = x0 if j == i else X[j-1]`,
`y = x + (step_length - l) * tangent / d`, and when a `t` sequence was
supplied, `tau = (t0 if j == i else t[j-1])`, then
`tau += (step_length - l) / d * (t[j] - tau)`. -/
noncomputable def arcEmit (X : List Vecr) (t : Option (List ℝ)) (step l : ℝ)
    (i j : ℕ) (x0 : Vecr) (t0 : ℝ) : Vecr × ℝ :=
  let tangent := arcTangent X i j x0
  let dj := eunorm tangent
  let x := if j = i then x0 else X.getD (j - 1) []
  let y := List.zipWith (fun a b => a + (step - l) * b / dj) x tangent
  let tau :=
    match t with
    | none => t0
    | some ts =>
      let tau0 := if j = i then t0 else ts.getD (j - 1) 0
      tau0 + (step - l) / dj * (ts.getD j 0 - tau0)
  (y, tau)

open Classical in
/-- The inner `for j in range(i, len(X) - 1)` loop of `arclength_sampling`,
carrying the accumulated length `l` and the previous segment length `d`.
`.inr (y, tau, j)` models the `break` after emitting the interpolated point
`y` (with interpolated time `tau` when a `t` sequence was supplied);
`.inl (l, d)` models the loop running to completion, with the final values
of `l` and `d` (read afterwards by the termination test `l + d < step`). -/
noncomputable def arcInner (X : List Vecr) (t : Option (List ℝ)) (step : ℝ)
    (i : ℕ) (x0 : Vecr) (t0 : ℝ) :
    List ℕ → ℝ → ℝ → ((ℝ × ℝ) ⊕ (Vecr × ℝ × ℕ))
  | [], l, d => .inl (l, d)
  | j :: js, l, _ =>
    if step ≤ l + eunorm (arcTangent X i j x0) then
      .inr ((arcEmit X t step l i j x0 t0).1, (arcEmit X t step l i j x0 t0).2, j)
    else arcInner X t step i x0 t0 js
      (l + eunorm (arcTangent X i j x0)) (eunorm (arcTangent X i j x0))

open Classical in
/-- The outer `while i < len(X) - 1 and not terminate` loop of
`arclength_sampling`, as a fuel-indexed recursion (`none` models a run out
of fuel; the Python loop does not terminate on some inputs).  Each pass
adds `step` to `arclength` before testing `l + d < step_length`, whether or
not a point was emitted. -/
noncomputable def arcOuter (X : List Vecr) (t : Option (List ℝ)) (step : ℝ) :
    ℕ → ℕ → Vecr → ℝ → List Vecr → List ℝ → ℝ → Option (List Vecr × ℝ × List ℝ)
  | 0, _, _, _, _, _, _ => none
  | fuel + 1, i, x0, t0, Y, T, arclen =>
    if i < X.length - 1 then
      match arcInner X t step i x0 t0 (jsRange i X.length) 0 0 with
      | .inr (y, tau, j) =>
        arcOuter X t step fuel j y tau (Y ++ [y])
          (if t.isSome then T ++ [tau] else T) (arclen + step)
      | .inl (l, d) =>
        if l + d < step then some (Y, arclen + step, T)
        else arcOuter X t step fuel i x0 t0 Y T (arclen + step)
    else some (Y, arclen, T)

/-- `arclength_sampling(X, step_length, t)`: walk the polyline from
`x0 = X[0]`, `i = 1`, emitting linear-interpolated points.  Returns the
emitted points, the accumulated `arclength`, and the interpolated times
(empty when no `t` was supplied).  `none` models the `X[0]` IndexError on an
empty input and non-termination (fuel exhaustion). -/
noncomputable def arclength_sampling (X : List Vecr) (step_length : ℝ)
    (t : Option (List ℝ)) (fuel : ℕ) : Option (List Vecr × ℝ × List ℝ) :=
  match X with
  | [] => none
  | _ :: _ =>
    arcOuter X t step_length fuel 1 X.headI
      (match t with | none => 0 | some ts => ts.headI) [] [] 0

/-- Lines 83–87 of `get_init_path`: map `start`/`end` to their nearest cell
index (`[0][0]` of the k-NN index matrix), query the shortest path in the
graph, and gather the embedding coordinates along that index path. -/
def gatherPath {γ : Type} (nn : Vecr → List Vecr → ℕ → List (List ℕ))
    (shortest_path : γ → ℕ → ℕ → List ℕ) (G : γ)
    (start stop : Vecr) (coords : List Vecr) : List Vecr :=
  (shortest_path G (((nn start coords 1).headI).headI)
    (((nn stop coords 1).headI).headI)).map (fun k => coords.getD k [])

/-- Lines 89–90 of `get_init_path`:
`arc_stepsize = arclen / (interpolation_num - 1)` where `arclen` is the
arclength of the DEDUPLICATED polyline. -/
noncomputable def initStepSize (init_path : List Vecr) (interpolation_num : ℕ) : ℝ :=
  (remove_redundant_points_trajectory init_path (1 / 10000)).2.1
    / ((interpolation_num : ℝ) - 1)

/-- `get_init_path(G, start, end, coords, interpolation_num)`.  The
nearest-neighbour lookup (`nearest_neighbors`, whose module is not among
the sources; spec §6 lists it as an external collaborator returning an
index matrix, of which `[0][0]` is read) and the networkx shortest-path
query are external and passed as the parameters `nn` and `shortest_path`.
Note the arclength resampling runs on the ORIGINAL gathered polyline
`init_path`; only the step size uses the deduplicated arclength. -/
noncomputable def get_init_path {γ : Type}
    (nn : Vecr → List Vecr → ℕ → List (List ℕ))
    (shortest_path : γ → ℕ → ℕ → List ℕ) (G : γ)
    (start stop : Vecr) (coords : List Vecr) (interpolation_num : ℕ) (fuel : ℕ) :
    Option (List Vecr) :=
  let init_path := gatherPath nn shortest_path G start stop coords
  match arclength_sampling init_path (initStepSize init_path interpolation_num)
      (some ((List.range init_path.length).map (fun (k : ℕ) => (k : ℝ)))) fuel with
  | none => none
  | some (Y, _, _) => some (start :: (Y ++ [stop]))

end ArcCurveModule

section IntegratorModule

/-!
## `integrate_vf` (`dynamo/tools/utils.py`) and `fate` (`dynamo/tools/fate.py`)

`scipy.integrate.odeint` and `scipy.interpolate.interp1d` are external and
passed as parameters (`odeint f y0 ts` returns the integrated rows at the
times `ts`; `interp1dF xs rows qs` evaluates the interpolant of `rows` over
the grid `xs` at the query times `qs`).  The CPython `list(set(a).union(b))`
on index lists has a hash-table-dependent iteration order, passed as the
parameter `setUnion`.  Errors carry the Python exception raised at the
corresponding line.
-/

/-- The message of the exception raised for an unrecognized direction string
(identical in `integrate_vf` and `fate`). -/
def directionErrorMsg : String :=
  "both, forward, backward are the only valid direction argument strings"

/-- An all-zeros row of width `n` (a row of `np.zeros((m, n))`). -/
def zeroVec (n : ℕ) : Vecq := List.replicate n 0

/-- Sum of a list of equal-width vectors (`np.sum(M, axis=0)`). -/
def vecSum (l : List Vecq) : Vecq :=
  match l with
  | [] => []
  | v :: vs => vs.foldl vadd v

/-- `np.linspace(a, b, num)` over exact rationals: `num` evenly spaced
points from `a` to `b` inclusive (`[a]` when `num = 1`, `[]` when `num = 0`;
rational division by `0` is `0`, matching numpy's single-point grid). -/
def linspaceQ (a b : ℚ) (num : ℕ) : List ℚ :=
  (List.range num).map (fun (k : ℕ) => a + (k : ℚ) * (b - a) / ((num : ℚ) - 1))

/-- `np.arange(start, stop, step)` over exact rationals:
`⌈(stop−start)/step⌉` points `start + k·step`. -/
def arangeQ (start stop step : ℚ) : List ℚ :=
  (List.range (⌈(stop - start) / step⌉.toNat)).map (fun (k : ℕ) => start + (k : ℚ) * step)

/-- `np.where((np.diff(y.T) < 1e-3).sum(0) < y.shape[1])[0]`: the indices
`j` of consecutive-row gaps where fewer than all `y.shape[1]` features have
a (signed) step difference below `1e-3`, i.e. at least one feature moved by
`≥ 1e-3`. -/
def validIndices (y : List Vecq) : List ℕ :=
  let width := (y.headI).length
  (List.range (y.length - 1)).filter
    (fun j =>
      ((List.zipWith (fun a b => b - a) (y.getD j []) (y.getD (j + 1) [])).countP
        (fun z => decide (z < 1 / 1000))) < width)

/-- The per-cell `for i in range(n_cell)` loop of `integrate_vf`
(lines 1119–1144), carried state: the stacked rows `Y`, the last assigned
`t_trans` (`none` when the loop body never ran), the current
`interpolation_num` (the "both" branch doubles it on every iteration), and
the accumulated `valid_ids`.  For direction "both" the code computes
`y = np.hstack((y_b[::-1, :], y_f))`: `np.hstack` concatenates 2-D arrays
COLUMN-wise, so each row of `y` is a backward row followed by a forward row
(and `hstack` raises `ValueError` when the two row counts differ). -/
def ivfLoop (odeint : (Vecq → Vecq) → Vecq → List ℚ → List Vecq)
    (setUnion : List ℕ → List ℕ → List ℕ)
    (t : List ℚ) (direction : String) (f : Vecq → Vecq) :
    List Vecq → Option (List ℚ) → Option ℕ → Option (List ℕ) → List Vecq →
    Except String (List Vecq × Option (List ℚ) × Option ℕ × Option (List ℕ))
  | [], tTrans, interpNum, validIds, Y => .ok (Y, tTrans, interpNum, validIds)
  | y0 :: rest, _tTrans, interpNum, validIds, Y =>
    let step : Except String (List Vecq × List ℚ × Option ℕ) :=
      if direction = "forward" then .ok (odeint f y0 t, t, interpNum)
      else if direction = "backward" then
        .ok (odeint f y0 (t.map Neg.neg), t.map Neg.neg, interpNum)
      else if direction = "both" then
        let y_f := odeint f y0 t
        let y_b := odeint f y0 (t.map Neg.neg)
        if y_b.length ≠ y_f.length then
          .error "ValueError: all the input array dimensions except for the concatenation axis must match exactly"
        else
          .ok (List.zipWith (· ++ ·) y_b.reverse y_f,
            (t.map Neg.neg).reverse ++ t, interpNum.map (fun m => m * 2))
      else .error directionErrorMsg
    match step with
    | .error e => .error e
    | .ok (y, t_trans, interpNum') =>
      let validIds' :=
        if interpNum'.isSome then
          some (match validIds with
            | none => validIndices y
            | some v => setUnion v (validIndices y))
        else validIds
      ivfLoop odeint setUnion t direction f rest (some t_trans) interpNum' validIds' (Y ++ y)

/-- The per-cell re-interpolation loop of `integrate_vf` (lines 1150–1157).
Note the slice `Y[i : (i + 1) * len(t_trans), :]` starts at row `i`, not at
row `i * len(t_trans)`. -/
def interpCells (interp1dF : List ℚ → List Vecq → List ℚ → List Vecq)
    (tt : List ℚ) (ids : List ℕ) (vtt : List ℚ) (interpNum : ℕ) (Y : List Vecq) :
    List ℕ → List ℚ → List Vecq → Except String (List ℚ × List Vecq)
  | [], accT, accY => .ok (accT, accY)
  | i :: rest, accT, accY =>
    let cur_Y := (Y.drop i).take ((i + 1) * tt.length - i)
    if ids.any (fun j => cur_Y.length ≤ j) then
      .error "IndexError: index out of bounds (cur_Y)"
    else
      let cur := ids.map (fun j => cur_Y.getD j [])
      let t_linspace := linspaceQ vtt.headI vtt.getLastI interpNum
      interpCells interp1dF tt ids vtt interpNum Y rest
        (accT ++ t_linspace) (accY ++ interp1dF vtt cur t_linspace)

/-- The averaging step of `integrate_vf` (lines 1161–1165): with
`t_len = int(len(t) / n_cell)`, overwrite row `i < t_len` of the
preallocated `avg0` with `np.mean(Y[np.arange(n_cell) * t_len + i, :], 0)`;
rows `i ≥ t_len` keep their preallocated zeros.  numpy raises `IndexError`
when `t_len` exceeds the rows of `avg0` or a fancy row index exceeds the
rows of `Y`. -/
def avgStep (n_cell : ℕ) (t : List ℚ) (Y : List Vecq) (avg0 : List Vecq) :
    Except String (List Vecq) :=
  let t_len := t.length / n_cell
  if avg0.length < t_len then .error "IndexError: index out of bounds (avg)"
  else if Y.length < n_cell * t_len ∧ 0 < t_len then
    .error "IndexError: index out of bounds (Y)"
  else
    .ok ((List.range avg0.length).map (fun i =>
      if i < t_len then
        vscale (1 / (n_cell : ℚ))
          (vecSum ((List.range n_cell).map (fun k => Y.getD (k * t_len + i) [])))
      else avg0.getD i []))

/-- The re-interpolation stage of `integrate_vf` (lines 1146–1159), run on
the loop's final state when an interpolation count was requested.  With an
empty batch the loop never assigned `t_trans` and line 1147 raises
`NameError`; the fancy indexing `t_trans[valid_ids]` raises `IndexError`
out of bounds, and `valid_t_trans[0]` raises `IndexError` when no valid
index survived. -/
def ivfInterpStage (interp1dF : List ℚ → List Vecq → List ℚ → List Vecq)
    (n_cell : ℕ) (t : List ℚ) (Y : List Vecq) (tTrans : Option (List ℚ))
    (interpNum : Option ℕ) (validIds : Option (List ℕ)) :
    Except String (List ℚ × List Vecq) :=
  match interpNum with
  | none => .ok (t, Y)
  | some m =>
    match tTrans with
    | none => .error "NameError: name 't_trans' is not defined"
    | some tt =>
      let ids := validIds.getD []
      if ids.any (fun j => tt.length ≤ j) then
        .error "IndexError: index out of bounds (t_trans)"
      else
        let vtt := ids.map (fun j => tt.getD j 0)
        if vtt = [] then .error "IndexError: index 0 is out of bounds"
        else interpCells interp1dF tt ids vtt m Y (List.range n_cell) [] []

/-- The final averaging stage of `integrate_vf` (lines 1161–1166): applies
`avgStep` when `n_cell > 1 and average`, replacing the states by `avg`. -/
def ivfAvgStage (n_cell : ℕ) (average : Bool) (avg0 : List Vecq)
    (p : List ℚ × List Vecq) : Except String (List ℚ × List Vecq) :=
  if 1 < n_cell ∧ average = true then
    match avgStep n_cell p.1 p.2 avg0 with
    | .error e => .error e
    | .ok Yavg => .ok (p.1, Yavg)
  else .ok p

/-- `integrate_vf(init_states, t, args, integration_direction, f,
interpolation_num, average)`: the per-cell loop, then the interpolation
stage, then the averaging stage.  `args` is forwarded to `odeint`, whose
integrand closure `lambda x, t: f(x)` ignores both the time argument and
any extra arguments, so `args` cannot influence the result. -/
def integrate_vf (odeint : (Vecq → Vecq) → Vecq → List ℚ → List Vecq)
    (interp1dF : List ℚ → List Vecq → List ℚ → List Vecq)
    (setUnion : List ℕ → List ℕ → List ℕ)
    (init_states : List Vecq) (t : List ℚ) (args : List ℚ)
    (direction : String) (f : Vecq → Vecq)
    (interpolation_num : Option ℕ := none) (average : Bool := true) :
    Except String (List ℚ × List Vecq) :=
  let n_cell := init_states.length
  let n_feature := (init_states.headI).length
  let n_steps := match interpolation_num with | none => t.length | some m => m
  -- `avg` is preallocated (zeros) only when `n_cell > 1` and `average`;
  -- `2 * n_steps` rows for direction "both", `n_steps` rows otherwise
  let avg0 := if direction = "both" then List.replicate (2 * n_steps) (zeroVec n_feature)
    else List.replicate n_steps (zeroVec n_feature)
  let _ := args
  match ivfLoop odeint setUnion t direction f init_states none interpolation_num none [] with
  | .error e => .error e
  | .ok (Y, tTrans, interpNum, validIds) =>
    match ivfInterpStage interp1dF n_cell t Y tTrans interpNum validIds with
    | .error e => .error e
    | .ok p => ivfAvgStage n_cell average avg0 p

/-- `int(np.log10(q))` for a positive rational: floor of the base-10
logarithm for `q ≥ 1`, truncation toward zero for `0 < q < 1`. -/
def intLog10 (q : ℚ) : ℤ :=
  if 1 ≤ q then (Nat.log 10 ⌊q⌋₊ : ℤ) else -(Nat.log 10 ⌊1 / q⌋₊ : ℤ)

/-- The `t_linspace` construction of `fate` (lines 109–112), which runs
before the direction dispatch: `np.linspace(0, t_end, 10**max(int(np.log10(t_end)), 6))`
when no step size is given (`np.log10` of a non-positive `t_end` yields
nan or -inf, on which `int` raises), else `np.arange(0, t_end + step_size,
step_size)` (which raises for a zero step). -/
def fate_tgrid (t_end : ℚ) (step_size : Option ℚ) : Except String (List ℚ) :=
  match step_size with
  | none =>
    if t_end ≤ 0 then .error "ValueError: cannot convert float NaN to integer"
    else .ok (linspaceQ 0 t_end (10 ^ (max (intLog10 t_end) 6).toNat))
  | some s =>
    if s = 0 then .error "ZeroDivisionError: division by zero"
    else .ok (arangeQ 0 (t_end + s) s)

/-- `fate(VecFld, init_states, VecFld_true, t_end, step_size, direction,
average)` (`dynamo/tools/fate.py`).  The reconstructed field closure
`V_func` is passed in directly (`vector_field_function` is imported from a
module not among the sources).  Each loop iteration calls
`integrate_vf(init_states[i, :], ...)` on a 1-D row; `integrate_vf`
immediately reads `init_states.shape[1]`, which a 1-D array lacks, so the
first iteration raises `IndexError`.  With an empty batch no iteration
runs and the `return t, prediction, avg` statement reads the never-assigned
loop variable `t`, raising `NameError`. -/
def fate (V_func : Vecq → Vecq) (init_states : List Vecq) (t_end : ℚ)
    (step_size : Option ℚ) (direction : String) (average : Bool) :
    Except String (List ℚ × List Vecq × List Vecq) := do
  let _t_linspace ← fate_tgrid t_end step_size
  let _ := V_func
  let _ := average
  if direction = "both" then
    match init_states with
    | [] => .error "NameError: name 't' is not defined"
    | _ :: _ => .error "IndexError: tuple index out of range"
  else if direction = "forward" ∨ direction = "backward" then
    match init_states with
    | [] => .error "NameError: name 't' is not defined"
    | _ :: _ => .error "IndexError: tuple index out of range"
  else .error directionErrorMsg

end IntegratorModule

section HelperLemmas

lemma sumsq_append (a b : Vecq) : sumsq (a ++ b) = sumsq a + sumsq b := by
  simp [sumsq]

lemma sumsq_flatten (L : List Vecq) : sumsq L.flatten = (L.map sumsq).sum := by
  induction L with
  | nil => simp [sumsq]
  | cons a L ih => simp [sumsq_append, ih]

lemma sumsq_nonneg (a : Vecq) : 0 ≤ sumsq a := by
  apply List.sum_nonneg
  intro z hz
  rcases List.mem_map.mp hz with ⟨w, _, rfl⟩
  exact mul_self_nonneg w

lemma action_singleton (x : Vecq) (vf : Vecq → Vecq) (D dt : ℚ) :
    action [x] vf D dt = 0 := by
  simp [action, midpoints, velocities, sumsq]

end HelperLemmas

section ClaimC6

/-- C6: for every path, vector field `f`, diffusion `D` and step `dt`, the
code's `action` equals `(dt / 2D) · Σᵢ ‖vᵢ − f(mᵢ)‖²` with midpoints
`mᵢ = (xᵢ+xᵢ₊₁)/2` and finite-difference velocities `vᵢ = (xᵢ₊₁−xᵢ)/dt`
(the specification-worded `action_spec`); consequently it is non-negative
for `D > 0`, `dt > 0`, and zero on a single-point path. -/
theorem C6_action_is_scaled_squared_mismatch (path : List Vecq)
    (vf : Vecq → Vecq) (D dt : ℚ) :
    action path vf D dt = action_spec path vf D dt
    ∧ (0 < D → 0 < dt → 0 ≤ action path vf D dt)
    ∧ (∀ x : Vecq, action [x] vf D dt = 0) := by
  refine ⟨?_, ?_, fun x => action_singleton x vf D dt⟩
  · show (1/2) * sumsq _ * dt / D = dt / (2 * D) * _
    rw [sumsq_flatten, List.map_zipWith]
    rcases eq_or_ne D 0 with hD | hD
    · simp [hD]
    · field_simp
      ring
  · intro _ hdt
    show 0 ≤ (1/2) * sumsq _ * dt / D
    have h1 : 0 ≤ sumsq ((List.zipWith
        (fun vi xi => vsub vi (vf xi)) (velocities path dt) (midpoints path)).flatten) :=
      sumsq_nonneg _
    positivity

/-- Witness for C6 at a concrete input. -/
theorem C6_witness :
    (0 : ℚ) < 1 ∧ (0 : ℚ) ≤ action [[0], [1]] (fun _ => [0]) 1 1 :=
  ⟨by norm_num,
    (C6_action_is_scaled_squared_mismatch [[0], [1]] (fun _ => [0]) 1 1).2.1
      (by norm_num) (by norm_num)⟩

end ClaimC6

section ClaimC10

lemma map_range_getD {α : Type} (l : List α) (d : α) :
    (List.range l.length).map (fun k => l.getD k d) = l := by
  induction l with
  | nil => simp
  | cons a as ih =>
    have hc : (fun k => (a :: as).getD k d) ∘ Nat.succ = fun k => as.getD k d := by
      funext k
      simp
    rw [List.length_cons, List.range_succ_eq_map, List.map_cons, List.map_map, hc, ih,
      List.getD_cons_zero]

/-- C10: a `LeastActionPath` built from path `X` and step `dt` has time grid
`tᵢ = i·dt`; its cached cumulative-action series has `action[0] = 0`
(`action` on a one-point prefix vanishes) and entry `i` equals the action
functional recomputed from scratch on the prefix `x₀..xᵢ`. -/
theorem C10_least_action_path_cached_series (X : List Vecq) (vf : Vecq → Vecq)
    (D dt : ℚ) :
    (LeastActionPath.construct X vf D dt).t
        = (List.range X.length).map (fun (i : ℕ) => (i : ℚ) * dt)
    ∧ (LeastActionPath.construct X vf D dt).actionSeries
        = (List.range X.length).map (fun i => action (X.take (i + 1)) vf D dt)
    ∧ (∀ x xs, X = x :: xs →
        (LeastActionPath.construct X vf D dt).actionSeries.headI = 0) := by
  refine ⟨rfl, ?_, ?_⟩
  · show (List.range X.length).map _ = _
    refine List.map_congr_left (fun i hi => ?_)
    rcases Nat.eq_zero_or_pos i with rfl | hpos
    · have hX : 0 < X.length := by simpa using List.mem_range.mp hi
      rcases X with _ | ⟨x, xs⟩
      · simp at hX
      · simpa using (action_singleton x vf D dt).symm
    · simp [Nat.pos_iff_ne_zero.mp hpos]
  · rintro x xs rfl
    simp [LeastActionPath.construct, List.range_succ_eq_map]

/-- Witness for C10 at a concrete input. -/
theorem C10_witness :
    (LeastActionPath.construct [[0], [1]] (fun _ => [0]) 1 1).actionSeries.headI = 0 :=
  (C10_least_action_path_cached_series [[0], [1]] (fun _ => [0]) 1 1).2.2 [0] [[1]] rfl

end ClaimC10

section ClaimC1

/-- C1 (code bug): the objective closure `fun` (and the gradient closure
`jac`) that `least_action_path` hands to `scipy.optimize.minimize` computes
`action_aux` (resp. `action_grad_aux`) but has no `return` statement, so it
returns `None` for every interior-point vector — not the action of the
re-assembled path.  At the concrete failing input (start `[0]`, end `[1]`,
interior `x = [1/2]`, zero field, `D = dt = 1`) the action of the assembled
path is `1/4`, which the closure discards. -/
theorem C1_minimizer_objective_returns_none :
    (∀ (path_0 : List Vecq) (vf : Vecq → Vecq) (dim : ℕ) (D dt_0 : ℚ) (x : List ℚ),
      lap_fun path_0 vf dim D dt_0 x = none)
    ∧ (∀ (path_0 : List Vecq) (vf : Vecq → Vecq) (jf : Vecq → List Vecq)
        (dim : ℕ) (D dt_0 : ℚ) (x : List ℚ),
      lap_jac path_0 vf jf dim D dt_0 x = none)
    ∧ action_aux [1/2] (fun _ => [0]) 1 (some [0]) (some [1]) 1 1 = .ok (1/4) := by
  refine ⟨fun _ _ _ _ _ _ => rfl, fun _ _ _ _ _ _ _ => rfl, ?_⟩
  simp only [action_aux, reshape_path, chunkRows, chunkRowsGo]
  norm_num [action, midpoints, velocities, vsub, vadd, sumsq, Except.map]

end ClaimC1

section ClaimC5
lemma zipWith_fst (s e : List ℚ) (h : s.length = e.length) :
    List.zipWith (fun a _ => a) s e = s := by
  induction s generalizing e with
  | nil => simp
  | cons a as ih =>
    cases e with
    | nil => simp at h
    | cons b bs =>
      simp only [List.zipWith_cons_cons, List.cons.injEq, true_and]
      exact ih bs (by simpa using h)

lemma zipWith_snd (s e : List ℚ) (h : s.length = e.length) :
    List.zipWith (fun _ b => b) s e = e := by
  induction s generalizing e with
  | nil => cases e <;> simp_all
  | cons a as ih =>
    cases e with
    | nil => simp at h
    | cons b bs =>
      simp only [List.zipWith_cons_cons, List.cons.injEq, true_and]
      exact ih bs (by simpa using h)

lemma lap_seed_headI (s e : Vecq) (n : ℕ) (h : s.length = e.length) :
    (lap_seed s e n).headI = s := by
  rw [lap_seed, List.range_succ_eq_map, List.map_cons]
  show List.zipWith (fun a b => a + (((0 : ℕ) : ℚ) / (n : ℚ)) * (b - a)) s e = s
  simp only [Nat.cast_zero, zero_div, zero_mul, add_zero]
  exact zipWith_fst s e h

lemma lap_seed_getLastI (s e : Vecq) (n : ℕ) (h : s.length = e.length)
    (hn : 1 ≤ n) :
    (lap_seed s e n).getLastI = e := by
  have hconcat : lap_seed s e n
      = (List.range n).map
          (fun (k : ℕ) => List.zipWith (fun a b => a + ((k : ℚ) / (n : ℚ)) * (b - a)) s e)
        ++ [List.zipWith (fun a b => a + ((n : ℚ) / (n : ℚ)) * (b - a)) s e] := by
    rw [lap_seed, List.range_succ, List.map_append, List.map_singleton]
  have h0 : (lap_seed s e n).getLastI
      = List.zipWith (fun a b => a + ((n : ℚ) / (n : ℚ)) * (b - a)) s e := by
    rw [hconcat, List.getLastI_eq_getLast?, List.getLast?_concat, Option.iget_some]
  rw [h0]
  have hn' : ((n : ℚ) / (n : ℚ)) = 1 := by
    rw [div_self]
    exact_mod_cast Nat.pos_iff_ne_zero.mp hn
  rw [hn']
  simp only [one_mul, add_sub_cancel]
  exact zipWith_snd s e h

lemma reshape_path_ok_shape (flat : List ℚ) (dim : ℕ) (a b : Vecq) (p : List Vecq)
    (h : reshape_path flat dim (some a) (some b) = .ok p) :
    p = (a :: chunkRows flat dim) ++ [b] := by
  unfold reshape_path at h
  split at h
  · cases h
  · split at h
    · cases h
    · simp only [Except.ok.injEq] at h
      exact h.symm

/-- C5 (amended): for any minimizer behaviour, the path returned by
`least_action_path` has first element `path_0[0]` and last element
`path_0[-1]` — the endpoints of the SEED path (they are never passed to the
optimizer).  These equal the input `start`/`end` exactly whenever
`init_path is None` (the linear seed, for `n_points ≥ 1` and matching
dimensions) — or whenever the supplied seed itself starts/ends with them,
as `get_init_path` seeds do — but not for an arbitrary supplied seed. -/
theorem C5_endpoints_come_from_seed
    (minP : (List ℚ → Option ℚ) → (List ℚ → Option (List ℚ)) → List ℚ → SolDict)
    (minS : (ℚ → ℚ) → ℚ → SolDict)
    (start stop : Vecq) (vf : Vecq → Vecq) (jf : Vecq → List Vecq)
    (n_points : ℕ) (init_path : Option (List Vecq)) (D dt0 : ℚ)
    (ps : List Vecq) (dts act : ℚ) (sd : SolDict)
    (h : least_action_path minP minS start stop vf jf n_points init_path D dt0
        = .ok (ps, dts, act, sd)) :
    ps.head? = some (lap_path0 start stop n_points init_path).headI
    ∧ ps.getLast? = some (lap_path0 start stop n_points init_path).getLastI
    ∧ (init_path = none → start.length = stop.length →
        (lap_path0 start stop n_points init_path).headI = start
        ∧ (1 ≤ n_points → (lap_path0 start stop n_points init_path).getLastI = stop)) := by
  have h3 : init_path = none → start.length = stop.length →
      (lap_path0 start stop n_points init_path).headI = start
      ∧ (1 ≤ n_points → (lap_path0 start stop n_points init_path).getLastI = stop) := by
    rintro rfl hlen
    exact ⟨lap_seed_headI start stop n_points hlen,
      fun hn => lap_seed_getLastI start stop n_points hlen hn⟩
  unfold least_action_path at h
  simp only [bind, Except.bind] at h
  cases hr : reshape_path
      (minP (lap_fun (lap_path0 start stop n_points init_path) vf start.length D dt0)
        (lap_jac (lap_path0 start stop n_points init_path) vf jf start.length D dt0)
        (((lap_path0 start stop n_points init_path).drop 1).dropLast.flatten)).x
      start.length
      (some (lap_path0 start stop n_points init_path).headI)
      (some (lap_path0 start stop n_points init_path).getLastI) with
  | error e => rw [hr] at h; cases h
  | ok p =>
    rw [hr] at h
    simp only [pure, Except.pure, Except.ok.injEq, Prod.mk.injEq] at h
    have hps : ps = ((lap_path0 start stop n_points init_path).headI
        :: chunkRows (minP (lap_fun (lap_path0 start stop n_points init_path) vf start.length D dt0)
          (lap_jac (lap_path0 start stop n_points init_path) vf jf start.length D dt0)
          (((lap_path0 start stop n_points init_path).drop 1).dropLast.flatten)).x start.length)
        ++ [(lap_path0 start stop n_points init_path).getLastI] := by
      rw [← h.1]
      exact reshape_path_ok_shape _ _ _ _ _ hr
    exact ⟨by rw [hps]; rfl, by rw [hps, List.getLast?_concat], h3⟩

/-- A concrete external path minimizer for the counterexample: always
returns the flat interior `[9]`. -/
def minPCE : (List ℚ → Option ℚ) → (List ℚ → Option (List ℚ)) → List ℚ → SolDict :=
  fun _ _ _ => ⟨[9], 0, "ok"⟩

/-- A concrete external scalar minimizer: returns its starting point. -/
def minSCE : (ℚ → ℚ) → ℚ → SolDict :=
  fun _ d => ⟨[d], 0, "ok"⟩

/-- Counterexample to C5 as stated: with a caller-supplied `init_path`
`[[5],[6],[7]]` whose endpoints differ from `start = [0]`, `end = [1]`, the
returned path is `[[5],[9],[7]]`: its first element is the seed's first
point `[5]`, not the input start vector, and its last is `[7]`, not the
input end vector. -/
theorem C5_counterexample :
    least_action_path minPCE minSCE [0] [1] (fun _ => [0]) (fun _ => [[0]]) 20
        (some [[5], [6], [7]]) 1 1
      = .ok ([[5], [9], [7]], 1, 0, ⟨[9], 0, "ok"⟩)
    ∧ ([[5], [9], [7]] : List Vecq).head? ≠ some [0]
    ∧ ([[5], [9], [7]] : List Vecq).getLast? ≠ some [1] := by
  refine ⟨?_, by simp, by simp⟩
  simp only [least_action_path, lap_path0, minPCE, minSCE, reshape_path, chunkRows, chunkRowsGo,
    List.headI, List.getLastI, bind, Except.bind, pure, Except.pure]
  norm_num

/-- Witness for C5 (amended) at a concrete input with `init_path = none`. -/
theorem C5_witness :
    ([[0], [9], [1]] : List Vecq).head? = some (lap_path0 [0] [1] 2 none).headI
    ∧ ([[0], [9], [1]] : List Vecq).getLast? = some (lap_path0 [0] [1] 2 none).getLastI
    ∧ ((none : Option (List Vecq)) = none → ([0] : Vecq).length = ([1] : Vecq).length →
        (lap_path0 [0] [1] 2 none).headI = [0]
        ∧ (1 ≤ 2 → (lap_path0 [0] [1] 2 none).getLastI = [1])) :=
  C5_endpoints_come_from_seed minPCE minSCE [0] [1] (fun _ => [0]) (fun _ => [[0]]) 2 none 1 1
    [[0], [9], [1]] 1 0 ⟨[9], 0, "ok"⟩
    (by
      have hseed : lap_seed [0] [1] 2 = [[0], [1/2], [1]] := by
        rw [lap_seed, show List.range 3 = [0, 1, 2] from rfl]
        norm_num
      simp only [least_action_path, lap_path0, hseed, minPCE, minSCE, reshape_path,
        chunkRows, chunkRowsGo, List.headI, List.getLastI, bind, Except.bind, pure, Except.pure]
      norm_num)
end ClaimC5

section ClaimC2

/-- A concrete external ODE solver for evaluations: row `s` of the result is
`[y0[0] + s]` for each requested time `s`. -/
def odeintAffine : (Vecq → Vecq) → Vecq → List ℚ → List Vecq :=
  fun _ y0 ts => ts.map (fun s => [y0.headI + s])

/-- C2 (code bug): for direction "both", `integrate_vf` computes
`y = np.hstack((y_b[::-1, :], y_f))`, and `np.hstack` concatenates 2-D
arrays COLUMN-wise: at the failing input (one initial state `[1]`,
`t = [0, 1]`) the result has the backward states glued onto the forward
states row-by-row — 2 rows of width 2 — instead of the claimed row-wise
concatenation (backward run reversed, then forward run: 4 rows of width 1,
shape `(n_cell * 2 * n_steps, n_feature)`), which is what the time grid
`t_trans` (length `2 * n_steps`) and the caller `fate` (which assigns `y`
into a `(2 * n_steps, n_feature)` block of `prediction`) both expect. -/
theorem C2_both_direction_hstacks_columnwise :
    integrate_vf odeintAffine (fun _ _ _ => []) (fun a b => a ++ b) [[1]] [0, 1] []
        "both" (fun v => v) none false
      = .ok ([0, 1], [[0, 1], [1, 2]])
    ∧ ([[0, 1], [1, 2]] : List Vecq)
        ≠ (odeintAffine (fun v => v) [1] ([0, 1].map Neg.neg)).reverse
          ++ odeintAffine (fun v => v) [1] [0, 1]
    ∧ ([[0, 1], [1, 2]] : List Vecq).length ≠ 1 * (2 * 2) := by
  refine ⟨?_, by simp [odeintAffine], by simp⟩
  simp [integrate_vf, ivfLoop, ivfInterpStage, ivfAvgStage, odeintAffine]
  norm_num

end ClaimC2

section ClaimC3

lemma flatten_getD_uniform (blocks : List (List Vecq)) (m : ℕ) :
    ∀ (k j : ℕ), (∀ b ∈ blocks, b.length = m) → k < blocks.length → j < m →
      blocks.flatten.getD (k * m + j) [] = (blocks.getD k []).getD j [] := by
  induction blocks with
  | nil => intro k j _ hk _; simp at hk
  | cons b bs ih =>
    intro k j hm hk hj
    have hb : b.length = m := hm b (by simp)
    cases k with
    | zero =>
      simp only [Nat.zero_mul, Nat.zero_add, List.flatten_cons, List.getD_cons_zero]
      rw [List.getD_eq_getElem?_getD, List.getElem?_append_left (by omega),
        ← List.getD_eq_getElem?_getD]
    | succ k =>
      have hlen : b.length ≤ (k + 1) * m + j := by
        rw [hb]; nlinarith
      simp only [List.flatten_cons]
      rw [List.getD_eq_getElem?_getD, List.getElem?_append_right hlen,
        ← List.getD_eq_getElem?_getD]
      have harith : (k + 1) * m + j - b.length = k * m + j := by
        rw [hb]; ring_nf; omega
      rw [harith]
      simpa using ih k j (fun x hx => hm x (by simp [hx])) (by simpa using hk) hj

lemma map_range_getD_comp {α β : Type} (l : List α) (d : α) (g : α → β) :
    (List.range l.length).map (fun k => g (l.getD k d)) = l.map g := by
  conv_rhs => rw [← map_range_getD l d]
  rw [List.map_map]
  rfl

/-- C3 (amended): the averaging step of `integrate_vf` computes the
per-time-step mean across the batch exactly when the (possibly re-assigned)
time grid has length `n_cell * m` with `m` the rows of each cell's block —
the shape produced by the interpolation branch, which concatenates one
re-interpolated grid and one block of `m` rows per cell.  Then output row
`j < m` is the mean over the cells of each cell's row `j` (rows `j ≥ m`
keep the preallocated zeros).  Without interpolation the grid keeps its
original length `n_steps`, the block length becomes `⌊n_steps/n_cell⌋`, and
the output is not the per-time-step batch mean (see the counterexample). -/
theorem C3_averaging_per_step_mean (n_cell m : ℕ) (blocks : List (List Vecq))
    (t : List ℚ) (avg0 : List Vecq)
    (hn : blocks.length = n_cell) (hm : ∀ b ∈ blocks, b.length = m)
    (ht : t.length = n_cell * m) (h2 : 2 ≤ n_cell) (havg : m ≤ avg0.length) :
    avgStep n_cell t blocks.flatten avg0
      = .ok ((List.range avg0.length).map (fun j =>
          if j < m then
            vscale (1 / (n_cell : ℚ)) (vecSum (blocks.map (fun b => b.getD j [])))
          else avg0.getD j [])) := by
  subst hn
  have hpos : 0 < blocks.length := by omega
  have htlen : t.length / blocks.length = m := by
    rw [ht, Nat.mul_div_cancel_left m hpos]
  have hYlen : blocks.flatten.length = blocks.length * m := by
    rw [List.length_flatten]
    have : blocks.map List.length = blocks.map (fun _ => m) :=
      List.map_congr_left (fun b hb => hm b hb)
    rw [this]
    have hrep : blocks.map (fun _ => m) = List.replicate blocks.length m := by
      induction blocks with
      | nil => rfl
      | cons b bs ih => simp [List.replicate_succ, ih]
    rw [hrep, List.sum_replicate, smul_eq_mul, mul_comm]
  unfold avgStep
  rw [htlen]
  rw [if_neg (by omega), if_neg (by rw [hYlen]; omega)]
  refine congrArg _ (List.map_congr_left (fun j hj => ?_))
  by_cases hjm : j < m
  · rw [if_pos hjm, if_pos hjm]
    have hrow : (List.range blocks.length).map
        (fun k => blocks.flatten.getD (k * m + j) [])
        = blocks.map (fun b => b.getD j []) := by
      rw [← map_range_getD_comp blocks [] (fun b => b.getD j [])]
      refine List.map_congr_left (fun k hk => ?_)
      exact flatten_getD_uniform blocks m k j hm (List.mem_range.mp hk) hjm
    rw [hrow]
  · rw [if_neg hjm, if_neg hjm]

/-- Counterexample to C3 as stated: two initial states `[1]`, `[5]`,
`t = [0, 1]`, direction forward, no interpolation, averaging on.  The block
length is `int(len(t)/n_cell) = 1`, so the code averages rows 0 and 1 —
both rows of cell 0 — into output row 0 and leaves row 1 at its
preallocated zeros: it returns `[[3/2], [0]]`, not the per-time-step batch
mean (`[[3], [4]]`). -/
theorem C3_counterexample :
    integrate_vf odeintAffine (fun _ _ _ => []) (fun a b => a ++ b) [[1], [5]] [0, 1] []
        "forward" (fun v => v) none true
      = .ok ([0, 1], [[3/2], [0]])
    ∧ ([[3/2], [0]] : List Vecq)
        ≠ [vscale (1/2) (vadd ((odeintAffine (fun v => v) [1] [0, 1]).getD 0 [])
              ((odeintAffine (fun v => v) [5] [0, 1]).getD 0 [])),
           vscale (1/2) (vadd ((odeintAffine (fun v => v) [1] [0, 1]).getD 1 [])
              ((odeintAffine (fun v => v) [5] [0, 1]).getD 1 []))] := by
  constructor
  · simp [integrate_vf, ivfLoop, ivfInterpStage, ivfAvgStage, avgStep, odeintAffine,
      zeroVec, vecSum, vadd, vscale, List.range_succ]
    norm_num
  · simp [odeintAffine, vscale, vadd]
    norm_num

/-- Witness for C3 (amended) at a concrete input. -/
theorem C3_witness :
    avgStep 2 [0, 0] ([[[1]], [[5]]] : List (List Vecq)).flatten [[0]]
      = .ok ((List.range ([[0]] : List Vecq).length).map (fun j =>
          if j < 1 then
            vscale (1 / (2 : ℚ))
              (vecSum (([[[1]], [[5]]] : List (List Vecq)).map (fun b => b.getD j [])))
          else ([[0]] : List Vecq).getD j [])) :=
  C3_averaging_per_step_mean 2 1 [[[1]], [[5]]] [0, 0] [[0]] rfl
    (by intro b hb; simp only [List.mem_cons, List.not_mem_nil, or_false] at hb
        rcases hb with rfl | rfl <;> rfl)
    rfl (by norm_num) (by norm_num)

end ClaimC3

section ClaimC9

lemma interpCells_ne_dirMsg (interpF : List ℚ → List Vecq → List ℚ → List Vecq)
    (tt : List ℚ) (ids : List ℕ) (vtt : List ℚ) (m : ℕ) (Y : List Vecq) :
    ∀ (cells : List ℕ) (accT : List ℚ) (accY : List Vecq),
      interpCells interpF tt ids vtt m Y cells accT accY ≠ .error directionErrorMsg := by
  intro cells
  induction cells with
  | nil => intro accT accY h; simp [interpCells] at h
  | cons i rest ih =>
    intro accT accY h
    rw [interpCells] at h
    split at h
    · simp [directionErrorMsg] at h
    · exact ih _ _ h

lemma avgStep_ne_dirMsg (n_cell : ℕ) (t : List ℚ) (Y avg0 : List Vecq) :
    avgStep n_cell t Y avg0 ≠ .error directionErrorMsg := by
  intro h
  simp only [avgStep] at h
  split at h
  · simp [directionErrorMsg] at h
  · split at h
    · simp [directionErrorMsg] at h
    · simp at h

lemma ivfInterpStage_ne_dirMsg (interpF : List ℚ → List Vecq → List ℚ → List Vecq)
    (n_cell : ℕ) (t : List ℚ) (Y : List Vecq) (tTrans : Option (List ℚ))
    (interpNum : Option ℕ) (validIds : Option (List ℕ)) :
    ivfInterpStage interpF n_cell t Y tTrans interpNum validIds
      ≠ .error directionErrorMsg := by
  intro h
  cases interpNum with
  | none => simp [ivfInterpStage] at h
  | some m =>
    cases tTrans with
    | none => simp [ivfInterpStage, directionErrorMsg] at h
    | some tt =>
      simp only [ivfInterpStage] at h
      split at h
      · simp [directionErrorMsg] at h
      · split at h
        · simp [directionErrorMsg] at h
        · exact interpCells_ne_dirMsg _ _ _ _ _ _ _ _ _ h

lemma ivfAvgStage_ne_dirMsg (n_cell : ℕ) (average : Bool) (avg0 : List Vecq)
    (p : List ℚ × List Vecq) :
    ivfAvgStage n_cell average avg0 p ≠ .error directionErrorMsg := by
  intro h
  simp only [ivfAvgStage] at h
  split at h
  · split at h
    · rename_i e heq
      refine avgStep_ne_dirMsg n_cell p.1 p.2 avg0 ?_
      rw [heq]
      simpa using h
    · simp at h
  · simp at h

lemma ivfLoop_nil_ok (odeint : (Vecq → Vecq) → Vecq → List ℚ → List Vecq)
    (setU : List ℕ → List ℕ → List ℕ) (t : List ℚ) (direction : String)
    (f : Vecq → Vecq) (tT : Option (List ℚ)) (iN : Option ℕ) (vI : Option (List ℕ))
    (Y : List Vecq) :
    ivfLoop odeint setU t direction f [] tT iN vI Y = .ok (Y, tT, iN, vI) := rfl

lemma ivfLoop_ne_dirMsg_of_valid (odeint : (Vecq → Vecq) → Vecq → List ℚ → List Vecq)
    (setU : List ℕ → List ℕ → List ℕ) (t : List ℚ) (direction : String)
    (f : Vecq → Vecq)
    (hval : direction = "forward" ∨ direction = "backward" ∨ direction = "both") :
    ∀ (cells : List Vecq) (tT : Option (List ℚ)) (iN : Option ℕ)
      (vI : Option (List ℕ)) (Y : List Vecq),
      ivfLoop odeint setU t direction f cells tT iN vI Y ≠ .error directionErrorMsg := by
  intro cells
  induction cells with
  | nil => intro tT iN vI Y h; simp [ivfLoop] at h
  | cons y0 rest ih =>
    intro tT iN vI Y h
    rw [ivfLoop] at h
    rcases hval with h1 | h1 | h1 <;> subst h1 <;> simp only [] at h
    · exact ih _ _ _ _ (by simpa using h)
    · exact ih _ _ _ _ (by simpa using h)
    · simp only [show ("both" = "forward") = False by simp,
        show ("both" = "backward") = False by simp, if_false, if_true, eq_self_iff_true,
        ite_true, ite_false] at h
      split at h
      · rename_i e heq
        rw [show e = directionErrorMsg by simpa using h] at heq
        split at heq
        · simp [directionErrorMsg] at heq
        · cases heq
      · exact ih _ _ _ _ (by simpa using h)

lemma ivfLoop_invalid_cons (odeint : (Vecq → Vecq) → Vecq → List ℚ → List Vecq)
    (setU : List ℕ → List ℕ → List ℕ) (t : List ℚ) (direction : String)
    (f : Vecq → Vecq) (y0 : Vecq) (rest : List Vecq) (tT : Option (List ℚ))
    (iN : Option ℕ) (vI : Option (List ℕ)) (Y : List Vecq)
    (hval : ¬(direction = "forward" ∨ direction = "backward" ∨ direction = "both")) :
    ivfLoop odeint setU t direction f (y0 :: rest) tT iN vI Y
      = .error directionErrorMsg := by
  push_neg at hval
  obtain ⟨h1, h2, h3⟩ := hval
  rw [ivfLoop]
  simp [h1, h2, h3]

lemma integrate_vf_ne_dirMsg_of_loop_ok
    (odeint : (Vecq → Vecq) → Vecq → List ℚ → List Vecq)
    (interpF : List ℚ → List Vecq → List ℚ → List Vecq)
    (setU : List ℕ → List ℕ → List ℕ) (init_states : List Vecq) (t : List ℚ)
    (args : List ℚ) (direction : String) (f : Vecq → Vecq) (iN : Option ℕ)
    (average : Bool) (res : List Vecq × Option (List ℚ) × Option ℕ × Option (List ℕ))
    (hloop : ivfLoop odeint setU t direction f init_states none iN none [] = .ok res) :
    integrate_vf odeint interpF setU init_states t args direction f iN average
      ≠ .error directionErrorMsg := by
  intro h
  unfold integrate_vf at h
  rw [hloop] at h
  obtain ⟨Y, tT, iNum, vI⟩ := res
  simp only [] at h
  cases hstage : ivfInterpStage interpF init_states.length t Y tT iNum vI with
  | error e =>
    rw [hstage] at h
    exact ivfInterpStage_ne_dirMsg interpF init_states.length t Y tT iNum vI
      (by rw [hstage]; simpa using h)
  | ok p =>
    rw [hstage] at h
    exact ivfAvgStage_ne_dirMsg _ _ _ _ h

/-- C9 (amended): the dedicated direction error is raised by `integrate_vf`
if and only if the direction string is invalid AND the batch is non-empty —
the check sits inside the per-cell loop, so an empty batch never reaches it
(see the counterexample) — and by `fate` (whose dispatch precedes its loop)
if and only if the direction is invalid, provided the `t_linspace`
construction that runs first succeeds.  For the three valid strings the
direction error is never raised (other failures remain possible). -/
theorem C9_direction_error_characterization :
    (∀ (odeint : (Vecq → Vecq) → Vecq → List ℚ → List Vecq)
       (interpF : List ℚ → List Vecq → List ℚ → List Vecq)
       (setU : List ℕ → List ℕ → List ℕ)
       (init_states : List Vecq) (t : List ℚ) (args : List ℚ) (direction : String)
       (f : Vecq → Vecq) (iN : Option ℕ) (average : Bool),
      integrate_vf odeint interpF setU init_states t args direction f iN average
          = .error directionErrorMsg
        ↔ (¬(direction = "forward" ∨ direction = "backward" ∨ direction = "both")
            ∧ init_states ≠ []))
    ∧ (∀ (V_func : Vecq → Vecq) (init_states : List Vecq) (t_end : ℚ)
        (step_size : Option ℚ) (direction : String) (average : Bool) (g : List ℚ),
        fate_tgrid t_end step_size = .ok g →
        (fate V_func init_states t_end step_size direction average
            = .error directionErrorMsg
          ↔ ¬(direction = "both" ∨ direction = "forward" ∨ direction = "backward"))) := by
  constructor
  · intro odeint interpF setU init_states t args direction f iN average
    constructor
    · intro h
      rcases Classical.em
          (direction = "forward" ∨ direction = "backward" ∨ direction = "both") with
        hval | hval
      · exfalso
        cases hloop : ivfLoop odeint setU t direction f init_states none iN none [] with
        | error e =>
          have he : e = directionErrorMsg := by
            unfold integrate_vf at h
            rw [hloop] at h
            simpa using h
          exact ivfLoop_ne_dirMsg_of_valid odeint setU t direction f hval
            init_states none iN none [] (he ▸ hloop)
        | ok res =>
          exact integrate_vf_ne_dirMsg_of_loop_ok odeint interpF setU init_states t args
            direction f iN average res hloop h
      · refine ⟨hval, ?_⟩
        rintro rfl
        exact integrate_vf_ne_dirMsg_of_loop_ok odeint interpF setU [] t args
          direction f iN average ([], none, iN, none) (ivfLoop_nil_ok _ _ _ _ _ _ _ _ _) h
    · rintro ⟨hval, hne⟩
      cases init_states with
      | nil => exact absurd rfl hne
      | cons y0 rest =>
        unfold integrate_vf
        rw [ivfLoop_invalid_cons odeint setU t direction f y0 rest none iN none [] hval]
  · intro V_func init_states t_end step_size direction average g hg
    unfold fate
    simp only [bind, Except.bind, hg]
    constructor
    · intro h
      by_contra hval
      rcases hval with h1 | h1 | h1 <;> rw [h1] at h <;>
        cases init_states <;> simp [directionErrorMsg] at h
    · intro hval
      push_neg at hval
      obtain ⟨h1, h2, h3⟩ := hval
      rw [if_neg h1, if_neg (by simp [h2, h3])]

/-- Counterexample to C9 as stated: `integrate_vf` with an EMPTY batch and
the invalid direction string "sideways" raises nothing at all — the
direction check lives inside the per-cell loop — returning the input grid
with an empty state array instead of the claimed immediate fatal error. -/
theorem C9_counterexample :
    integrate_vf odeintAffine (fun _ _ _ => []) (fun a b => a ++ b) [] [0] [] "sideways"
        (fun v => v) none true = .ok ([0], [])
    ∧ ¬("sideways" = "forward" ∨ "sideways" = "backward" ∨ "sideways" = "both") := by
  constructor
  · simp [integrate_vf, ivfLoop, ivfInterpStage, ivfAvgStage]
  · simp

/-- Witness for C9 (amended): `fate` with a valid time grid and the invalid
direction "sideways" raises exactly the direction error. -/
theorem C9_witness :
    fate (fun v => v) [] 1 (some 1) "sideways" true = .error directionErrorMsg :=
  ((C9_direction_error_characterization.2 (fun v => v) [] 1 (some 1) "sideways" true
      [0, 1]
      (by
        simp [fate_tgrid, arangeQ]
        rw [show List.range 2 = [0, 1] from rfl]
        norm_num)).mpr
    (by simp))

end ClaimC9

section ClaimC4

lemma eunorm_single (a : ℝ) : eunorm [a] = |a| := by
  simp only [eunorm, List.map_cons, List.map_nil, List.sum_cons, List.sum_nil, add_zero]
  exact Real.sqrt_mul_self_eq_abs a

lemma discardFlags_getD_false_iff (X : List Vecr) (tol : ℝ) (i : ℕ)
    (hi : i + 1 < X.length) :
    ((discardFlags X tol).getD (i + 1) false = false
      ↔ ¬(eunorm (rsub (X.getD (i + 1) []) (X.getD i [])) < tol)) := by
  rcases X with _ | ⟨x, xs⟩
  · simp at hi
  · have hlen : i < (List.zipWith
        (fun a b => if eunorm (rsub b a) < tol then true else false)
        (x :: xs).dropLast (x :: xs).tail).length := by
      simp only [List.length_zipWith, List.length_dropLast, List.length_tail]
      simp only [List.length_cons] at hi ⊢
      omega
    have hdl : i < (x :: xs).dropLast.length := by
      simp only [List.length_dropLast, List.length_cons] at hi ⊢; omega
    have htl : i < (x :: xs).tail.length := by
      simp only [List.length_tail, List.length_cons] at hi ⊢; omega
    rw [show discardFlags (x :: xs) tol
        = false :: List.zipWith (fun a b => if eunorm (rsub b a) < tol then true else false)
          (x :: xs).dropLast (x :: xs).tail from rfl]
    rw [List.getD_cons_succ, List.getD_eq_getElem _ _ hlen, List.getElem_zipWith]
    have h1 : (x :: xs).dropLast[i] = (x :: xs).getD i [] := by
      rw [List.getElem_dropLast, List.getD_eq_getElem]
    have h2 : (x :: xs).tail[i] = (x :: xs).getD (i + 1) [] := by
      have : (x :: xs).tail[i] = (x :: xs).tail.getD i [] := by
        rw [List.getD_eq_getElem]
      rw [this]
      cases xs with
      | nil => simp at htl
      | cons b bs => simp [List.getD_cons_succ]
    rw [h1, h2]
    by_cases hC : eunorm (rsub ((x :: xs).getD (i + 1) []) ((x :: xs).getD i [])) < tol
    · rw [if_pos hC]
      simp only [Bool.true_eq_false, false_iff, not_not]
      simpa [List.getD] using hC
    · rw [if_neg hC]
      simp only [eq_self_iff_true, true_iff]
      simpa [List.getD] using hC

/-- C4 (amended): `remove_redundant_points_trajectory` never drops the first
point, and a point it RETAINS (other than the first) is at distance `≥ tol`
from its immediate predecessor IN THE INPUT ARRAY — the comparison
`discard[i+1] = ‖X[i+1] − X[i]‖ < tol` always reads the original array, not
the last retained point, so consecutive points of the OUTPUT can end up
closer than `tol` (see the counterexample). -/
theorem C4_filter_compares_array_predecessor (X : List Vecr) (tol : ℝ) :
    (remove_redundant_points_trajectory X tol).1.head? = X.head?
    ∧ ∀ i : ℕ, i + 1 < X.length →
        (remove_redundant_points_trajectory X tol).2.2.getD (i + 1) false = false →
        tol ≤ eunorm (rsub (X.getD (i + 1) []) (X.getD i [])) := by
  constructor
  · rcases X with _ | ⟨x, xs⟩
    · rfl
    · show ((((x :: xs).zip (discardFlags (x :: xs) tol)).filterMap
          (fun p => if p.2 then none else some p.1)).head? : Option Vecr)
        = some x
      rw [show discardFlags (x :: xs) tol
          = false :: List.zipWith (fun a b => if eunorm (rsub b a) < tol then true else false)
            (x :: xs).dropLast (x :: xs).tail from rfl]
      simp [List.zip_cons_cons, List.filterMap_cons]
  · intro i hi hflag
    have := (discardFlags_getD_false_iff X tol i hi).mp hflag
    exact not_lt.mp this

lemma rr_flags_cex :
    discardFlags [[0], [1/2], [-(3/5)]] 1 = [false, true, false] := by
  have e1 : eunorm (rsub [(1 : ℝ)/2] [0]) = 1/2 := by
    rw [show rsub [(1 : ℝ)/2] [0] = [1/2 - 0] from rfl, eunorm_single]
    norm_num
  have e2 : eunorm (rsub [-(3/5 : ℝ)] [1/2]) = 11/10 := by
    rw [show rsub [-(3/5 : ℝ)] [1/2] = [-(3/5) - 1/2] from rfl, eunorm_single]
    rw [show (-(3/5 : ℝ) - 1/2) = -(11/10) by norm_num, abs_neg]
    rw [abs_of_nonneg (by norm_num : (0 : ℝ) ≤ 11/10)]
  show (false :: [if eunorm (rsub [(1 : ℝ)/2] [0]) < 1 then true else false,
      if eunorm (rsub [-(3/5 : ℝ)] [1/2]) < 1 then true else false]) = [false, true, false]
  rw [e1, e2, if_pos (by norm_num), if_neg (by norm_num)]

/-- Counterexample to C4 as stated: on `X = [[0], [1/2], [-3/5]]` with
`tol = 1`, the point `[1/2]` is dropped (distance `1/2` from `[0]`) but
`[-3/5]` is kept (distance `11/10` from its ARRAY predecessor `[1/2]`);
the output is `[[0], [-3/5]]`, whose consecutive pair is only `3/5 < tol`
apart — sequential filtering against the last retained point would have
dropped `[-3/5]` too. -/
theorem C4_counterexample :
    (remove_redundant_points_trajectory [[0], [1/2], [-(3/5)]] 1).1 = [[0], [-(3/5)]]
    ∧ eunorm (rsub [-(3/5)] [0]) < 1 := by
  constructor
  · show ((([[0], [1/2], [-(3/5)]] : List Vecr)).zip
        (discardFlags [[0], [1/2], [-(3/5)]] 1)).filterMap
          (fun p => if p.2 then none else some p.1)
      = [[0], [-(3/5)]]
    rw [rr_flags_cex]
    simp [List.filterMap_cons]
  · rw [show rsub [-(3/5 : ℝ)] [0] = [-(3/5) - 0] from rfl, eunorm_single]
    rw [show (-(3/5 : ℝ) - 0) = -(3/5) by norm_num, abs_neg,
      abs_of_nonneg (by norm_num : (0 : ℝ) ≤ 3/5)]
    norm_num

lemma rr_flags_wit : discardFlags [[0], [1]] (1/2) = [false, false] := by
  have e1 : eunorm (rsub [(1 : ℝ)] [0]) = 1 := by
    rw [show rsub [(1 : ℝ)] [0] = [1 - 0] from rfl, eunorm_single]
    norm_num
  show (false :: [if eunorm (rsub [(1 : ℝ)] [0]) < 1/2 then true else false]) = [false, false]
  rw [e1, if_neg (by norm_num)]

/-- Witness for C4 (amended) at a concrete input. -/
theorem C4_witness :
    (1/2 : ℝ) ≤ eunorm (rsub (([[0], [1]] : List Vecr).getD 1 [])
      (([[0], [1]] : List Vecr).getD 0 [])) :=
  (C4_filter_compares_array_predecessor [[0], [1]] (1/2)).2 0 (by norm_num)
    (by show (discardFlags [[0], [1]] (1/2)).getD 1 false = false
        rw [rr_flags_wit]
        rfl)

end ClaimC4

section ClaimC8

lemma arcInner_break_mem (X : List Vecr) (t : Option (List ℝ)) (step : ℝ)
    (i : ℕ) (x0 : Vecr) (t0 : ℝ) :
    ∀ (js : List ℕ) (l d : ℝ) (y : Vecr) (tau : ℝ) (j : ℕ),
      arcInner X t step i x0 t0 js l d = .inr (y, tau, j) → j ∈ js := by
  intro js
  induction js with
  | nil => intro l d y tau j h; simp [arcInner] at h
  | cons j0 rest ih =>
    intro l d y tau j h
    rw [arcInner] at h
    split at h
    · simp only [Sum.inr.injEq, Prod.mk.injEq] at h
      simp [h.2.2]
    · exact List.mem_cons_of_mem j0 (ih _ _ _ _ _ h)

lemma arcOuter_stuck (X : List Vecr) (t : Option (List ℝ)) (step : ℝ)
    (i : ℕ) (x0 : Vecr) (t0 : ℝ) (l d : ℝ)
    (hinner : arcInner X t step i x0 t0 (jsRange i X.length) 0 0 = .inl (l, d))
    (hge : ¬(l + d < step)) (hi : i < X.length - 1) :
    ∀ (fuel : ℕ) (Y : List Vecr) (T : List ℝ) (a : ℝ),
      arcOuter X t step fuel i x0 t0 Y T a = none := by
  intro fuel
  induction fuel with
  | zero => intro Y T a; rfl
  | succ fuel ih =>
    intro Y T a
    rw [arcOuter, if_pos hi, hinner]
    show (if l + d < step then some (Y, a + step, T)
      else arcOuter X t step fuel i x0 t0 Y T (a + step)) = none
    rw [if_neg hge]
    exact ih _ _ _

lemma arcOuter_invariant (X : List Vecr) (t : Option (List ℝ)) (step : ℝ) :
    ∀ (fuel : ℕ) (i : ℕ) (x0 : Vecr) (t0 : ℝ) (Y0 : List Vecr) (T0 : List ℝ) (a : ℝ)
      (Yf : List Vecr) (arcf : ℝ) (Tf : List ℝ),
      i < X.length - 1 →
      arcOuter X t step fuel i x0 t0 Y0 T0 a = some (Yf, arcf, Tf) →
      ∃ k : ℕ, Yf.length = Y0.length + k ∧ arcf = a + (k + 1) * step := by
  intro fuel
  induction fuel with
  | zero =>
    intro i x0 t0 Y0 T0 a Yf arcf Tf hi h
    cases h
  | succ fuel ih =>
    intro i x0 t0 Y0 T0 a Yf arcf Tf hi h
    rw [arcOuter, if_pos hi] at h
    cases hinner : arcInner X t step i x0 t0 (jsRange i X.length) 0 0 with
    | inr r =>
      obtain ⟨y, tau, j⟩ := r
      rw [hinner] at h
      have hj : j < X.length - 1 := by
        have hmem := arcInner_break_mem X t step i x0 t0 _ _ _ _ _ _ hinner
        have hr := List.mem_range'_1.mp (by simpa [jsRange] using hmem)
        omega
      obtain ⟨k, hk1, hk2⟩ := ih j y tau _ _ _ Yf arcf Tf hj h
      refine ⟨k + 1, ?_, ?_⟩
      · rw [hk1]
        simp only [List.length_append, List.length_cons, List.length_nil]
        omega
      · rw [hk2]
        push_cast
        ring
    | inl r =>
      obtain ⟨l, d⟩ := r
      rw [hinner] at h
      by_cases hld : l + d < step
      · rw [show (match Sum.inl (α := ℝ × ℝ) (β := Vecr × ℝ × ℕ) (l, d) with
            | .inr (y, tau, j) =>
              arcOuter X t step fuel j y tau (Y0 ++ [y])
                (if t.isSome then T0 ++ [tau] else T0) (a + step)
            | .inl (l, d) =>
              if l + d < step then some (Y0, a + step, T0)
              else arcOuter X t step fuel i x0 t0 Y0 T0 (a + step))
            = if l + d < step then some (Y0, a + step, T0)
              else arcOuter X t step fuel i x0 t0 Y0 T0 (a + step) from rfl,
          if_pos hld] at h
        simp only [Option.some.injEq, Prod.mk.injEq] at h
        obtain ⟨h1, h2, h3⟩ := h
        exact ⟨0, by rw [← h1, Nat.add_zero], by rw [← h2]; push_cast; ring⟩
      · rw [show (match Sum.inl (α := ℝ × ℝ) (β := Vecr × ℝ × ℕ) (l, d) with
            | .inr (y, tau, j) =>
              arcOuter X t step fuel j y tau (Y0 ++ [y])
                (if t.isSome then T0 ++ [tau] else T0) (a + step)
            | .inl (l, d) =>
              if l + d < step then some (Y0, a + step, T0)
              else arcOuter X t step fuel i x0 t0 Y0 T0 (a + step))
            = if l + d < step then some (Y0, a + step, T0)
              else arcOuter X t step fuel i x0 t0 Y0 T0 (a + step) from rfl,
          if_neg hld] at h
        rw [arcOuter_stuck X t step i x0 t0 l d hinner hld hi fuel Y0 T0 (a + step)] at h
        cases h

/-- C8 (amended): every pass of the sampling loop adds `step_length` to the
returned total arclength, INCLUDING the final terminating pass that emits
no point, so whenever `arclength_sampling` terminates on an input of at
least 3 points the returned arclength is `(number of emitted points + 1) ·
step_length` — one `step_length` more than the length actually covered by
the emitted points.  Moreover the walk never considers the final input
segment (the inner loop stops at index `len(X) - 2`), so the sampler can
stop while `step_length` or more of polyline remains (see the
counterexample, where a tail of length 9 ≥ step is silently dropped). -/
theorem C8_arclength_counts_terminating_pass (X : List Vecr) (step : ℝ)
    (t : Option (List ℝ)) (fuel : ℕ) (Y : List Vecr) (arclen : ℝ) (T : List ℝ)
    (h3 : 3 ≤ X.length)
    (hrun : arclength_sampling X step t fuel = some (Y, arclen, T)) :
    arclen = (Y.length + 1) * step := by
  rcases X with _ | ⟨x, xs⟩
  · simp at h3
  · have h1 : 1 < (x :: xs).length - 1 := by
      simp only [List.length_cons] at h3 ⊢
      omega
    cases t with
    | none =>
      have hrun' : arcOuter (x :: xs) none step fuel 1 (x :: xs).headI 0 [] [] 0
          = some (Y, arclen, T) := hrun
      obtain ⟨k, hk1, hk2⟩ := arcOuter_invariant (x :: xs) none step fuel 1 _ _ [] [] 0
        Y arclen T h1 hrun'
      rw [hk2]
      simp only [List.length_nil, Nat.zero_add] at hk1
      rw [hk1]
      ring
    | some ts =>
      have hrun' : arcOuter (x :: xs) (some ts) step fuel 1 (x :: xs).headI ts.headI [] [] 0
          = some (Y, arclen, T) := hrun
      obtain ⟨k, hk1, hk2⟩ := arcOuter_invariant (x :: xs) (some ts) step fuel 1 _ _ [] [] 0
        Y arclen T h1 hrun'
      rw [hk2]
      simp only [List.length_nil, Nat.zero_add] at hk1
      rw [hk1]
      ring

lemma arc_cex_tangent : arcTangent [[0], [1], [10]] 1 1 [0] = [1 - 0] := by
  rw [arcTangent, if_pos rfl]
  rfl

lemma arc_cex_inner :
    arcInner [[0], [1], [10]] none 5 1 [0] 0 (jsRange 1 3) 0 0 = .inl (1, 1) := by
  rw [show jsRange 1 3 = [1] from rfl, arcInner, arc_cex_tangent]
  rw [show eunorm [(1 : ℝ) - 0] = 1 by rw [eunorm_single]; norm_num]
  rw [if_neg (by norm_num)]
  rw [arcInner]
  norm_num

lemma arc_cex_run :
    arclength_sampling [[0], [1], [10]] 5 none 3 = some ([], 5, []) := by
  show arcOuter [[0], [1], [10]] none 5 3 1 [0] 0 [] [] 0 = some ([], 5, [])
  rw [arcOuter, if_pos (by norm_num)]
  rw [show jsRange 1 ([[0], [1], [10]] : List Vecr).length = jsRange 1 3 from rfl,
    arc_cex_inner]
  show (if (1 : ℝ) + 1 < 5 then some (([] : List Vecr), (0 : ℝ) + 5, ([] : List ℝ))
    else arcOuter [[0], [1], [10]] none 5 2 1 [0] 0 [] [] (0 + 5)) = some ([], 5, [])
  rw [if_pos (by norm_num)]
  norm_num

/-- Counterexample to C8 as stated: on the 3-point polyline
`[[0], [1], [10]]` with `step_length = 5` the sampler emits NOTHING and
stops — although the whole polyline (length 10 ≥ step) lies beyond the
last emitted sample — because the inner walk never reaches the final
segment; and it returns arclength 5, not the multiple of `step_length`
covered by the (zero) emitted points. -/
theorem C8_counterexample :
    arclength_sampling [[0], [1], [10]] 5 none 3 = some ([], 5, [])
    ∧ (5 : ℝ) ≤ polyLen [[0], [1], [10]]
    ∧ (5 : ℝ) ≠ (([] : List Vecr).length : ℝ) * 5 := by
  refine ⟨arc_cex_run, ?_, by norm_num⟩
  rw [show polyLen [[0], [1], [10]]
      = eunorm [(1 : ℝ) - 0] + (eunorm [(10 : ℝ) - 1] + 0) from rfl]
  rw [show eunorm [(1 : ℝ) - 0] = 1 by rw [eunorm_single]; norm_num]
  rw [show eunorm [(10 : ℝ) - 1] = 9 by rw [eunorm_single]; norm_num]
  norm_num

/-- Witness for C8 (amended) at the concrete run above. -/
theorem C8_witness : (5 : ℝ) = ((([] : List Vecr).length : ℝ) + 1) * 5 :=
  C8_arclength_counts_terminating_pass [[0], [1], [10]] 5 none 3 [] 5 []
    (by norm_num) arc_cex_run

end ClaimC8

section ClaimC7

/-- C7 (amended): whenever `get_init_path` returns, its output is exactly
the arclength resampling of the ORIGINAL gathered polyline (not the
deduplicated one — the deduplicated path only supplies the step size) with
the exact `start` vector prepended and the exact `end` vector appended;
its length is (number of emitted samples) + 2, which need NOT equal
`interpolation_num + 1` (see the counterexample). -/
theorem C7_init_path_structure {γ : Type}
    (nn : Vecr → List Vecr → ℕ → List (List ℕ)) (sp : γ → ℕ → ℕ → List ℕ)
    (G : γ) (start stop : Vecr) (coords : List Vecr)
    (interpolation_num fuel : ℕ) (out : List Vecr)
    (h : get_init_path nn sp G start stop coords interpolation_num fuel = some out) :
    out.head? = some start
    ∧ out.getLast? = some stop
    ∧ ∃ Y arcl T,
        arclength_sampling (gatherPath nn sp G start stop coords)
          (initStepSize (gatherPath nn sp G start stop coords) interpolation_num)
          (some ((List.range (gatherPath nn sp G start stop coords).length).map
            (fun (k : ℕ) => (k : ℝ)))) fuel
          = some (Y, arcl, T)
        ∧ out = start :: (Y ++ [stop]) := by
  have h' : (match arclength_sampling (gatherPath nn sp G start stop coords)
      (initStepSize (gatherPath nn sp G start stop coords) interpolation_num)
      (some ((List.range (gatherPath nn sp G start stop coords).length).map
        (fun (k : ℕ) => (k : ℝ)))) fuel with
    | none => (none : Option (List Vecr))
    | some (Y, _, _) => some (start :: (Y ++ [stop]))) = some out := h
  clear h
  cases hs : arclength_sampling (gatherPath nn sp G start stop coords)
      (initStepSize (gatherPath nn sp G start stop coords) interpolation_num)
      (some ((List.range (gatherPath nn sp G start stop coords).length).map
        (fun (k : ℕ) => (k : ℝ)))) fuel with
  | none => rw [hs] at h'; cases h'
  | some r =>
    obtain ⟨Y, arcl, T⟩ := r
    rw [hs] at h'
    have hsome : some (start :: (Y ++ [stop])) = some out := h'
    have h2 : start :: (Y ++ [stop]) = out := Option.some.inj hsome
    refine ⟨by rw [← h2]; rfl, ?_, Y, arcl, T, rfl, h2.symm⟩
    rw [← h2, show start :: (Y ++ [stop]) = (start :: Y) ++ [stop] from rfl,
      List.getLast?_concat]

open Classical in
/-- A concrete external nearest-neighbour lookup for the counterexample:
index 0 for the start query `[0]`, index 2 otherwise. -/
noncomputable def nnCE : Vecr → List Vecr → ℕ → List (List ℕ) :=
  fun q _ _ => if q = [0] then [[0]] else [[2]]

/-- A concrete external shortest-path query: the index path `[0, 1, 2]`. -/
def spCE : Unit → ℕ → ℕ → List ℕ := fun _ _ _ => [0, 1, 2]

lemma e7_gather : gatherPath nnCE spCE () [0] [8] [[0], [4], [8]] = [[0], [4], [8]] := by
  rw [gatherPath, show spCE () (((nnCE [0] [[0], [4], [8]] 1).headI).headI)
    (((nnCE [8] [[0], [4], [8]] 1).headI).headI) = [0, 1, 2] from rfl]
  rfl

lemma e7_n40 : eunorm [(4 : ℝ) - 0] = 4 := by
  rw [eunorm_single]
  norm_num

lemma e7_n84 : eunorm [(8 : ℝ) - 4] = 4 := by
  rw [eunorm_single]
  norm_num

lemma e7_flags : discardFlags [[0], [4], [8]] (1 / 10000) = [false, false, false] := by
  show (false :: [if eunorm (rsub [(4 : ℝ)] [0]) < 1 / 10000 then true else false,
      if eunorm (rsub [(8 : ℝ)] [4]) < 1 / 10000 then true else false])
    = [false, false, false]
  rw [show rsub [(4 : ℝ)] [0] = [4 - 0] from rfl, show rsub [(8 : ℝ)] [4] = [8 - 4] from rfl,
    e7_n40, e7_n84, if_neg (by norm_num)]

lemma e7_step : initStepSize [[0], [4], [8]] 5 = 2 := by
  rw [initStepSize]
  rw [show (remove_redundant_points_trajectory [[0], [4], [8]] (1 / 10000)).2.1
      = polyLen ((([[0], [4], [8]] : List Vecr).zip
          (discardFlags [[0], [4], [8]] (1 / 10000))).filterMap
        (fun p => if p.2 then none else some p.1)) from rfl]
  rw [e7_flags]
  rw [show ((([[0], [4], [8]] : List Vecr).zip [false, false, false]).filterMap
      (fun p => if p.2 then none else some p.1)) = [[0], [4], [8]] by simp]
  rw [show polyLen [[0], [4], [8]] = eunorm [(4 : ℝ) - 0] + (eunorm [(8 : ℝ) - 4] + 0) from rfl,
    e7_n40, e7_n84]
  norm_num

lemma e7_tan1 : arcTangent [[0], [4], [8]] 1 1 [0] = [4 - 0] := by
  rw [arcTangent, if_pos rfl]
  rfl

lemma e7_tan2 : arcTangent [[0], [4], [8]] 1 1 [2] = [4 - 2] := by
  rw [arcTangent, if_pos rfl]
  rfl

lemma e7_tan3 : arcTangent [[0], [4], [8]] 1 1 [4] = [4 - 4] := by
  rw [arcTangent, if_pos rfl]
  rfl

lemma e7_emit1 : arcEmit [[0], [4], [8]] (some [0, 1, 2]) 2 0 1 1 [0] 0 = ([2], 1/2) := by
  simp only [arcEmit, e7_tan1, show rsub ([[0], [4], [8]] : List Vecr).headI [0] = [0 - 0]
    from rfl]
  rw [e7_n40]
  norm_num [e7_tan1]

lemma e7_emit2 : arcEmit [[0], [4], [8]] (some [0, 1, 2]) 2 0 1 1 [2] (1/2) = ([4], 1) := by
  simp only [arcEmit, e7_tan2]
  rw [show eunorm [(4 : ℝ) - 2] = 2 by rw [eunorm_single]; norm_num]
  norm_num [e7_tan2]

lemma e7_inner1 :
    arcInner [[0], [4], [8]] (some [0, 1, 2]) 2 1 [0] 0 (jsRange 1 3) 0 0
      = .inr ([2], 1/2, 1) := by
  rw [show jsRange 1 3 = [1] from rfl, arcInner, e7_tan1, e7_n40,
    if_pos (by norm_num), e7_emit1]

lemma e7_inner2 :
    arcInner [[0], [4], [8]] (some [0, 1, 2]) 2 1 [2] (1/2) (jsRange 1 3) 0 0
      = .inr ([4], 1, 1) := by
  rw [show jsRange 1 3 = [1] from rfl, arcInner, e7_tan2,
    show eunorm [(4 : ℝ) - 2] = 2 by rw [eunorm_single]; norm_num,
    if_pos (by norm_num), e7_emit2]

lemma e7_inner3 :
    arcInner [[0], [4], [8]] (some [0, 1, 2]) 2 1 [4] 1 (jsRange 1 3) 0 0
      = .inl (0, 0) := by
  rw [show jsRange 1 3 = [1] from rfl, arcInner, e7_tan3,
    show eunorm [(4 : ℝ) - 4] = 0 by rw [eunorm_single]; norm_num,
    if_neg (by norm_num), arcInner]
  norm_num

lemma e7_samp :
    arclength_sampling [[0], [4], [8]] 2 (some [0, 1, 2]) 9
      = some ([[2], [4]], 6, [1/2, 1]) := by
  show arcOuter [[0], [4], [8]] (some [0, 1, 2]) 2 9 1 [0] 0 [] [] 0
    = some ([[2], [4]], 6, [1/2, 1])
  rw [arcOuter, if_pos (by norm_num),
    show jsRange 1 ([[0], [4], [8]] : List Vecr).length = jsRange 1 3 from rfl, e7_inner1]
  show arcOuter [[0], [4], [8]] (some [0, 1, 2]) 2 8 1 [2] (1/2) ([] ++ [[2]])
    (if (some [(0 : ℝ), 1, 2]).isSome then [] ++ [1/2] else []) (0 + 2)
    = some ([[2], [4]], 6, [1/2, 1])
  rw [show (([] : List Vecr) ++ [[2]]) = [[2]] from rfl,
    show (if (some [(0 : ℝ), 1, 2]).isSome then [] ++ [(1 : ℝ)/2] else []) = [1/2] from rfl]
  rw [arcOuter, if_pos (by norm_num),
    show jsRange 1 ([[0], [4], [8]] : List Vecr).length = jsRange 1 3 from rfl, e7_inner2]
  show arcOuter [[0], [4], [8]] (some [0, 1, 2]) 2 7 1 [4] 1 ([[2]] ++ [[4]])
    (if (some [(0 : ℝ), 1, 2]).isSome then [1/2] ++ [1] else [1/2]) (0 + 2 + 2)
    = some ([[2], [4]], 6, [1/2, 1])
  rw [show (([[2]] : List Vecr) ++ [[4]]) = [[2], [4]] from rfl,
    show (if (some [(0 : ℝ), 1, 2]).isSome then [(1 : ℝ)/2] ++ [1] else [1/2]) = [1/2, 1]
      from rfl]
  rw [arcOuter, if_pos (by norm_num),
    show jsRange 1 ([[0], [4], [8]] : List Vecr).length = jsRange 1 3 from rfl, e7_inner3]
  show (if (0 : ℝ) + 0 < 2 then some (([[2], [4]] : List Vecr), 0 + 2 + 2 + 2, [(1 : ℝ)/2, 1])
    else arcOuter [[0], [4], [8]] (some [0, 1, 2]) 2 6 1 [4] 1 [[2], [4]] [1/2, 1] (0 + 2 + 2 + 2))
    = some ([[2], [4]], 6, [1/2, 1])
  rw [if_pos (by norm_num)]
  norm_num

lemma e7_ts :
    ((List.range ([[0], [4], [8]] : List Vecr).length).map (fun (k : ℕ) => (k : ℝ)))
      = [0, 1, 2] := by
  rw [show List.range ([[0], [4], [8]] : List Vecr).length = [0, 1, 2] from rfl]
  norm_num

lemma e7_run :
    get_init_path nnCE spCE () [0] [8] [[0], [4], [8]] 5 9
      = some [[0], [2], [4], [8]] := by
  show (match arclength_sampling (gatherPath nnCE spCE () [0] [8] [[0], [4], [8]])
      (initStepSize (gatherPath nnCE spCE () [0] [8] [[0], [4], [8]]) 5)
      (some ((List.range (gatherPath nnCE spCE () [0] [8] [[0], [4], [8]]).length).map
        (fun (k : ℕ) => (k : ℝ)))) 9 with
    | none => (none : Option (List Vecr))
    | some (Y, _, _) => some ([0] :: (Y ++ [[8]]))) = some [[0], [2], [4], [8]]
  rw [e7_gather, e7_step, e7_ts, e7_samp]
  rfl

/-- Counterexample to C7 as stated: on the similarity graph whose shortest
path gathers the polyline `[[0], [4], [8]]`, with `start = [0]`,
`end = [8]` and `interpolation_num = 5`, the builder returns a path of 4
points `[[0], [2], [4], [8]]`, not `5 + 1 = 6`: the sampler (run on the
original, non-deduplicated polyline, with step `8 / (5-1) = 2`) emits only
2 points, because the walk never enters the final segment `[4] → [8]`. -/
theorem C7_counterexample :
    get_init_path nnCE spCE () [0] [8] [[0], [4], [8]] 5 9 = some [[0], [2], [4], [8]]
    ∧ ([[0], [2], [4], [8]] : List Vecr).length ≠ 5 + 1 :=
  ⟨e7_run, by simp⟩

/-- Witness for C7 (amended) at the concrete run above. -/
theorem C7_witness :
    ([[0], [2], [4], [8]] : List Vecr).head? = some [0]
    ∧ ([[0], [2], [4], [8]] : List Vecr).getLast? = some [8]
    ∧ ∃ Y arcl T,
        arclength_sampling (gatherPath nnCE spCE () [0] [8] [[0], [4], [8]])
          (initStepSize (gatherPath nnCE spCE () [0] [8] [[0], [4], [8]]) 5)
          (some ((List.range (gatherPath nnCE spCE () [0] [8] [[0], [4], [8]]).length).map
            (fun (k : ℕ) => (k : ℝ)))) 9
          = some (Y, arcl, T)
        ∧ ([[0], [2], [4], [8]] : List Vecr) = [0] :: (Y ++ [[8]]) :=
  C7_init_path_structure nnCE spCE () [0] [8] [[0], [4], [8]] 5 9 [[0], [2], [4], [8]]
    e7_run

end ClaimC7
